import Mathlib

set_option autoImplicit false

namespace MixMemory

/-- Python exception classes that the embedded mix-memory code can raise.
`attributeError`, `keyError`, `valueError` and `indexError` are Python
built-ins; `duplicateTrackError` and `missingTrackError` model the exception
classes defined in `src/mix_memory/library.py`. -/
inductive PyErr where
  | attributeError
  | keyError
  | valueError
  | indexError
  | duplicateTrackError
  | missingTrackError
  deriving DecidableEq

/-- The spec's network-level `UnknownTrackError` is realized in the source as
the built-in `ValueError` raised by `TrackNetwork.add_connection` and
`TrackNetwork.remove_connection` (src/mix_memory/track_network.py). -/
def UnknownTrackError : PyErr := .valueError

/-- `Track` from src/mix_memory/library.py: a `NamedTuple` with fields
`artist` and `title`. Equality is structural (componentwise), as for Python
named tuples. -/
structure Track where
  artist : String
  title : String
  deriving DecidableEq

/-- `Track.hash8` from src/mix_memory/library.py lines 16-21. The Python
body computes an md5-based value and then executes `self.hash8 = value`.
Because `hash8` is a `property` with no setter (and `Track` is an immutable
`NamedTuple`), that assignment raises `AttributeError` on every access, so
the property never returns a value; the computed digest is discarded, so the
digest itself is not modelled. -/
def Track.hash8 (_t : Track) : Except PyErr Int :=
  .error .attributeError

/-- `Track.__str__` from src/mix_memory/library.py: `f"{self.artist} - {self.title}"`. -/
def Track.str (t : Track) : String :=
  t.artist ++ " - " ++ t.title

/-- Lookup in a Python dict modelled as an insertion-ordered association
list: the first entry with the given key wins (a real dict has unique keys,
so this agrees with Python wherever the key list is duplicate-free). -/
def dictGet {β : Type} : List (Int × β) → Int → Option β
  | [], _ => none
  | (k', v) :: rest, k => if k' = k then some v else dictGet rest k

/-- The key list of a modelled Python dict, in insertion order. -/
def dictKeys {β : Type} (m : List (Int × β)) : List Int :=
  m.map Prod.fst

/-- `d[k] = v` on a Python dict: if the key is present its value is replaced
in place (keeping its position), otherwise the pair is appended at the end. -/
def dictInsert {β : Type} (m : List (Int × β)) (k : Int) (v : β) : List (Int × β) :=
  if k ∈ dictKeys m then m.map (fun p => if p.1 = k then (k, v) else p)
  else m ++ [(k, v)]

/-- `d.update(other)` on Python dicts: insert every entry of `other` into
`d`, in `other`'s iteration order. -/
def dictUpdate {β : Type} (m other : List (Int × β)) : List (Int × β) :=
  other.foldl (fun acc p => dictInsert acc p.1 p.2) m

/-- `Library` from src/mix_memory/library.py: wraps `track_map`, a Python
dict from track ID to `Track`, modelled as an insertion-ordered association
list. -/
structure Library where
  track_map : List (Int × Track)
  deriving DecidableEq

/-- `Library.__getitem__` (src/mix_memory/library.py line 80-81):
`self.track_map[id]`, a plain Python dict subscript, which raises the
built-in `KeyError` when the key is absent. -/
def Library.getitem (lib : Library) (id : Int) : Except PyErr Track :=
  match dictGet lib.track_map id with
  | some t => .ok t
  | none => .error .keyError

/-- `Library.get_track` (src/mix_memory/library.py lines 127-129): just
`self[track_id]`. -/
def Library.get_track (lib : Library) (track_id : Int) : Except PyErr Track :=
  lib.getitem track_id

/-- `Library.tracks`: `list(self.track_map.values())`. -/
def Library.tracks (lib : Library) : List Track :=
  lib.track_map.map Prod.snd

/-- `Library.track_ids`: `list(self.track_map.keys())`. -/
def Library.track_ids (lib : Library) : List Int :=
  lib.track_map.map Prod.fst

/-- `Library.add_track` (src/mix_memory/library.py lines 92-105): first the
duplicate check `if track in self.track_map.values()`, raising
`DuplicateTrackError`; only then `track_id = track.hash8` (which itself
raises, see `Track.hash8`) followed by the dict store. -/
def Library.add_track (lib : Library) (track : Track) : Except PyErr Library :=
  if track ∈ lib.track_map.map Prod.snd then
    .error .duplicateTrackError
  else do
    let track_id ← track.hash8
    pure ⟨dictInsert lib.track_map track_id track⟩

/-- `Library.extend` (src/mix_memory/library.py lines 150-154):
`merged = self.track_map.copy(); merged.update(other.track_map)`, returning
a new `Library`. -/
def Library.extend (lib other : Library) : Library :=
  ⟨dictUpdate lib.track_map other.track_map⟩

/-- `merge_libraries` (src/mix_memory/library.py lines 157-165):
`library = libraries.pop()` takes the LAST list element (raising
`IndexError` on an empty list), then folds `library = library.extend(other)`
over the remaining libraries in their original order. -/
def merge_libraries (libraries : List Library) : Except PyErr Library :=
  match libraries.getLast? with
  | none => .error .indexError
  | some library => .ok (libraries.dropLast.foldl Library.extend library)

/-- The fragment of a networkx `DiGraph` used by the source: an
insertion-ordered set of integer nodes and an insertion-ordered set of
directed edges. -/
structure DiGraph where
  nodes : List Int
  edges : List (Int × Int)
  deriving DecidableEq

/-- `graph.add_node(n)`: a no-op when the node is already present, otherwise
the node is appended (networkx node sets are insertion-ordered and
duplicate-free). -/
def DiGraph.add_node (g : DiGraph) (n : Int) : DiGraph :=
  if n ∈ g.nodes then g else { g with nodes := g.nodes ++ [n] }

/-- `graph.add_edge(u, v)`: both endpoints are added as nodes if missing;
re-adding an existing directed edge is a no-op, otherwise the edge is
appended. -/
def DiGraph.add_edge (g : DiGraph) (u v : Int) : DiGraph :=
  let g' := (g.add_node u).add_node v
  if (u, v) ∈ g'.edges then g' else { g' with edges := g'.edges ++ [(u, v)] }

/-- `graph.number_of_nodes()`. -/
def DiGraph.number_of_nodes (g : DiGraph) : Nat :=
  g.nodes.length

/-- `graph.number_of_edges()`. -/
def DiGraph.number_of_edges (g : DiGraph) : Nat :=
  g.edges.length

/-- Outgoing adjacency of a node: the targets of the directed edges whose
source is `u` (the spec's `neighbors` query). -/
def DiGraph.successors (g : DiGraph) (u : Int) : List Int :=
  (g.edges.filter (fun e => e.1 == u)).map Prod.snd

/-- `TrackNetwork` from src/mix_memory/track_network.py: a networkx
`DiGraph` together with the `Library` the network was built from. -/
structure TrackNetwork where
  graph : DiGraph
  library : Library
  deriving DecidableEq

/-- `TrackNetwork.from_library_and_connections`
(src/mix_memory/track_network.py lines 49-73). Its first loop iterates over
`library.tracks.keys()`, but `Library.tracks` is a plain method, not a
property, so `library.tracks` is a bound-method object and accessing
`.keys` on it raises the built-in `AttributeError` before any node or edge
is added — the constructor never returns a network. -/
def TrackNetwork.from_library_and_connections (_library : Library)
    (_connections : Option (List (Int × Int))) : Except PyErr TrackNetwork :=
  .error .attributeError

/-- `TrackNetwork.from_library` (src/mix_memory/track_network.py lines
75-78): delegates to `from_library_and_connections` with no connections. -/
def TrackNetwork.from_library (library : Library) : Except PyErr TrackNetwork :=
  TrackNetwork.from_library_and_connections library none

/-- `TrackNetwork.track_ids`: `list(self._graph.nodes())`. -/
def TrackNetwork.track_ids (tn : TrackNetwork) : List Int :=
  tn.graph.nodes

/-- `TrackNetwork.connections`: `list(self._graph.edges())` (the
`TrackIdConnections` wrapper only validates that entries are integer pairs,
which holds by type here). -/
def TrackNetwork.connections (tn : TrackNetwork) : List (Int × Int) :=
  tn.graph.edges

/-- `TrackNetwork.n_connections`: `self._graph.number_of_edges()`. -/
def TrackNetwork.n_connections (tn : TrackNetwork) : Nat :=
  tn.graph.number_of_edges

/-- `TrackNetwork.add_connection` (src/mix_memory/track_network.py lines
96-112): first both IDs are checked against the current nodes, raising
`ValueError` (`UnknownTrackError` in the spec's taxonomy) before any
mutation; on success the edge source→target is added, plus target→source
when `bidirectional`. -/
def TrackNetwork.add_connection (tn : TrackNetwork)
    (source_track_id target_track_id : Int) (bidirectional : Bool) :
    Except PyErr TrackNetwork :=
  if source_track_id ∉ tn.graph.nodes then .error .valueError
  else if target_track_id ∉ tn.graph.nodes then .error .valueError
  else
    let g := tn.graph.add_edge source_track_id target_track_id
    let g := if bidirectional then g.add_edge target_track_id source_track_id else g
    .ok { tn with graph := g }

/-- One row of the `library` table (src/mix_memory/database.py):
`{"id": ..., "artist": ..., "title": ...}`. -/
structure LibraryRow where
  id : Int
  artist : String
  title : String
  deriving DecidableEq

/-- `LibraryData.from_library` (src/mix_memory/database.py lines 56-62): one
row per `track_map` item, in iteration order. -/
def LibraryData.from_library (library : Library) : List LibraryRow :=
  library.track_map.map (fun p => ⟨p.1, p.2.artist, p.2.title⟩)

/-- `LibraryData.to_library` (src/mix_memory/database.py lines 64-70): the
dict comprehension `{row["id"]: Track(row["artist"], row["title"]) ...}`,
i.e. successive dict inserts starting from the empty dict. -/
def LibraryData.to_library (rows : List LibraryRow) : Library :=
  ⟨rows.foldl (fun m row => dictInsert m row.id ⟨row.artist, row.title⟩) []⟩

/-- One row of the `connections` table (src/mix_memory/database.py). -/
structure ConnectionRow where
  source_track_id : Int
  target_track_id : Int
  deriving DecidableEq

/-- `ConnectionsData.from_connections` (src/mix_memory/database.py lines
87-96): one row per directed connection, in order. -/
def ConnectionsData.from_connections (connections : List (Int × Int)) :
    List ConnectionRow :=
  connections.map (fun c => ⟨c.1, c.2⟩)

/-- `ConnectionsData.to_connections` (src/mix_memory/database.py lines
98-101): back to the list of `(source, target)` pairs, in row order. -/
def ConnectionsData.to_connections (rows : List ConnectionRow) :
    List (Int × Int) :=
  rows.map (fun row => (row.source_track_id, row.target_track_id))

/-- A node of the d3 export document: `{"id": ..., "name": ...}`. -/
structure D3Node where
  id : Int
  name : String
  deriving DecidableEq

/-- A link of the d3 export document: `{"source": ..., "target": ...}`. -/
structure D3Link where
  source : Int
  target : Int
  deriving DecidableEq

/-- The d3 export document: `{"nodes": [...], "links": [...]}` (its pydantic
schema check only enforces the field types, which hold by construction
here). -/
structure D3Doc where
  nodes : List D3Node
  links : List D3Link
  deriving DecidableEq

/-- The node list comprehension of `D3NetworkData.from_track_network`:
`[{"id": i, "name": str(library[i])} for i in track_ids]`, evaluated left to
right, where the dict subscript `library[i]` can raise `KeyError`. -/
def d3NodesOf (library : Library) : List Int → Except PyErr (List D3Node)
  | [] => .ok []
  | track_id :: rest => do
    let track ← library.getitem track_id
    let nodes ← d3NodesOf library rest
    pure (⟨track_id, Track.str track⟩ :: nodes)

/-- `D3NetworkData.from_track_network` (src/mix_memory/d3_network_data.py
lines 54-68): one node entry per network track id, named
`str(library[id])`, and one link entry per directed connection. -/
def D3NetworkData.from_track_network (tn : TrackNetwork) : Except PyErr D3Doc := do
  let nodes ← d3NodesOf tn.library tn.track_ids
  pure ⟨nodes, tn.connections.map (fun c => ⟨c.1, c.2⟩)⟩

/-- `RekordboxHistoryPlaylist` (src/mix_memory/rekordbox.py): a `Library`
whose `track_map` is ordered by play time, plus playlist metadata. -/
structure RekordboxHistoryPlaylist where
  track_map : List (Int × Track)
  name : String
  date_file_number : Int
  deriving DecidableEq

/-- The ordered track list of a history playlist: `self.tracks()`, i.e.
`list(self.track_map.values())` inherited from `Library`. -/
def RekordboxHistoryPlaylist.tracks (p : RekordboxHistoryPlaylist) : List Track :=
  p.track_map.map Prod.snd

/-- `RekordboxHistoryPlaylist.transitions` (src/mix_memory/rekordbox.py
lines 95-101): `[(tracks[i], tracks[i+1]) for i, _ in enumerate(tracks[:-1])]`,
i.e. the list of adjacent pairs of the ordered track list, embedded as
zipping the list with its own tail. -/
def RekordboxHistoryPlaylist.transitions (p : RekordboxHistoryPlaylist) :
    List (Track × Track) :=
  let tracks := p.tracks
  tracks.zip tracks.tail

@[simp]
theorem dictKeys_nil {β : Type} : dictKeys ([] : List (Int × β)) = [] :=
  rfl

@[simp]
theorem dictKeys_cons {β : Type} (p : Int × β) (m : List (Int × β)) :
    dictKeys (p :: m) = p.1 :: dictKeys m :=
  rfl

@[simp]
theorem dictKeys_append {β : Type} (a b : List (Int × β)) :
    dictKeys (a ++ b) = dictKeys a ++ dictKeys b := by
  simp [dictKeys]

theorem dictGet_eq_none_of_not_mem {β : Type} (m : List (Int × β)) (k : Int)
    (h : k ∉ dictKeys m) : dictGet m k = none := by
  induction m with
  | nil => rfl
  | cons p rest ih =>
    rcases p with ⟨k', v⟩
    simp only [dictKeys_cons, List.mem_cons, not_or] at h
    simp only [dictGet, if_neg (Ne.symm h.1)]
    exact ih h.2

theorem dictGet_append_right {β : Type} (m : List (Int × β)) (k : Int) (v : β)
    (h : k ∉ dictKeys m) : dictGet (m ++ [(k, v)]) k = some v := by
  induction m with
  | nil => simp [dictGet]
  | cons p rest ih =>
    rcases p with ⟨k', v'⟩
    simp only [dictKeys_cons, List.mem_cons, not_or] at h
    simp only [List.cons_append, dictGet, if_neg (Ne.symm h.1)]
    exact ih h.2

theorem dictGet_replace_self {β : Type} (m : List (Int × β)) (k : Int) (v : β)
    (hk : k ∈ dictKeys m) :
    dictGet (m.map (fun p => if p.1 = k then (k, v) else p)) k = some v := by
  induction m with
  | nil => simp at hk
  | cons p rest ih =>
    rcases p with ⟨a, b⟩
    by_cases ha : a = k
    · subst ha
      simp only [List.map_cons]
      simp [dictGet]
    · simp only [dictKeys_cons, List.mem_cons] at hk
      have hk' : k ∈ dictKeys rest := hk.resolve_left fun he => ha he.symm
      simp only [List.map_cons, if_neg ha]
      simp only [dictGet, if_neg ha]
      exact ih hk'

theorem dictGet_replace_ne {β : Type} (m : List (Int × β)) (k k' : Int) (v : β)
    (h : k' ≠ k) :
    dictGet (m.map (fun p => if p.1 = k then (k, v) else p)) k' = dictGet m k' := by
  induction m with
  | nil => rfl
  | cons p rest ih =>
    rcases p with ⟨a, b⟩
    by_cases ha : a = k
    · subst ha
      simp only [List.map_cons, if_pos rfl]
      simp [dictGet, Ne.symm h, ih]
    · simp only [List.map_cons, if_neg ha]
      by_cases ha' : a = k' <;> simp [dictGet, ha', ih]

theorem dictGet_insert_self {β : Type} (m : List (Int × β)) (k : Int) (v : β) :
    dictGet (dictInsert m k v) k = some v := by
  unfold dictInsert
  by_cases hk : k ∈ dictKeys m
  · rw [if_pos hk]
    exact dictGet_replace_self m k v hk
  · rw [if_neg hk]
    exact dictGet_append_right m k v hk

theorem dictGet_insert_ne {β : Type} (m : List (Int × β)) (k k' : Int) (v : β)
    (h : k' ≠ k) : dictGet (dictInsert m k v) k' = dictGet m k' := by
  unfold dictInsert
  by_cases hk : k ∈ dictKeys m
  · rw [if_pos hk]
    exact dictGet_replace_ne m k k' v h
  · rw [if_neg hk]
    induction m with
    | nil => simp [dictGet, Ne.symm h]
    | cons p rest ih =>
      rcases p with ⟨a, b⟩
      by_cases ha : a = k' <;>
        simp_all [dictGet]

theorem dictGet_update_not_mem {β : Type} (other : List (Int × β)) :
    ∀ (m : List (Int × β)) (k : Int), k ∉ dictKeys other →
      dictGet (dictUpdate m other) k = dictGet m k := by
  induction other with
  | nil => intro m k _; rfl
  | cons p rest ih =>
    intro m k h
    rcases p with ⟨a, b⟩
    simp only [dictKeys_cons, List.mem_cons, not_or] at h
    show dictGet (dictUpdate (dictInsert m a b) rest) k = dictGet m k
    rw [ih (dictInsert m a b) k h.2]
    exact dictGet_insert_ne m a k b h.1

theorem dictGet_update_mem {β : Type} (other : List (Int × β)) :
    ∀ (m : List (Int × β)) (k : Int) (v : β), (dictKeys other).Nodup →
      dictGet other k = some v → dictGet (dictUpdate m other) k = some v := by
  induction other with
  | nil => intro m k v _ h; simp [dictGet] at h
  | cons p rest ih =>
    intro m k v hnd h
    rcases p with ⟨a, b⟩
    simp only [dictKeys_cons, List.nodup_cons] at hnd
    by_cases ha : a = k
    · subst ha
      have hb : b = v := by simpa [dictGet] using h
      subst hb
      show dictGet (dictUpdate (dictInsert m a b) rest) a = some b
      rw [dictGet_update_not_mem rest (dictInsert m a b) a hnd.1]
      exact dictGet_insert_self m a b
    · simp only [dictGet, if_neg ha] at h
      show dictGet (dictUpdate (dictInsert m a b) rest) k = some v
      exact ih (dictInsert m a b) k v hnd.2 h

theorem foldl_dictInsert_fresh {β : Type} :
    ∀ (l acc : List (Int × β)), (dictKeys acc ++ dictKeys l).Nodup →
      l.foldl (fun m p => dictInsert m p.1 p.2) acc = acc ++ l := by
  intro l
  induction l with
  | nil => intro acc _; simp
  | cons p rest ih =>
    intro acc h
    rcases p with ⟨k, v⟩
    have h' := h
    rw [List.nodup_append] at h'
    obtain ⟨-, -, hdisj⟩ := h'
    have hk : k ∉ dictKeys acc := fun hmem =>
      hdisj hmem (by simp)
    have hins : dictInsert acc k v = acc ++ [(k, v)] := by
      simp [dictInsert, hk]
    simp only [List.foldl_cons, hins]
    rw [ih (acc ++ [(k, v)]) (by simpa using h)]
    simp

/-- C1: the claim says `identifier(track)` (the source's `Track.hash8`) is a
pure deterministic integer function of (artist, title); the code instead
raises `AttributeError` on every access because the property body assigns to
`self.hash8` (a setter-less property on an immutable `NamedTuple`) instead
of returning the computed digest. Evaluating the embedded code at the
concrete track ("A", "X") exhibits the failure. -/
theorem track_hash8_always_raises :
    Track.hash8 ⟨"A", "X"⟩ = .error .attributeError :=
  rfl

/-- C2: the claim says `TrackNetwork.from_library(L)` returns a network with
one node per library identifier and zero edges; the code instead raises
`AttributeError` for every library, because `from_library_and_connections`
iterates over `library.tracks.keys()` where `tracks` is a method (a
bound-method object has no `.keys`), so no network is ever returned. -/
theorem from_library_always_raises (library : Library) :
    TrackNetwork.from_library library = .error .attributeError :=
  rfl

/-- C5: adding a track that is already present by value (a structurally
equal track occurs among the library's values) always fails with
`DuplicateTrackError` and produces no modified library, so the library the
caller holds is unchanged (same mapping, same size). -/
theorem add_track_duplicate_rejected (lib : Library) (track : Track)
    (h : track ∈ lib.track_map.map Prod.snd) :
    lib.add_track track = .error .duplicateTrackError ∧
      ∀ lib' : Library, lib.add_track track ≠ .ok lib' := by
  have heq : lib.add_track track = .error .duplicateTrackError := by
    simp [Library.add_track, h]
  exact ⟨heq, fun lib' hok => by rw [heq] at hok; exact Except.noConfusion hok⟩

/-- C5 witness: instantiates `add_track_duplicate_rejected` on the
one-track library {7 ↦ ("A", "X")} and the structurally equal track
("A", "X"). -/
theorem add_track_duplicate_rejected_witness :
    Library.add_track ⟨[(7, ⟨"A", "X"⟩)]⟩ ⟨"A", "X"⟩ =
      .error .duplicateTrackError :=
  (add_track_duplicate_rejected ⟨[(7, ⟨"A", "X"⟩)]⟩ ⟨"A", "X"⟩ (by simp)).1

/-- C6 counterexample: at the concrete input of the empty library and the
absent identifier 5, the lookup does NOT fail with `MissingTrackError` (it
raises the built-in `KeyError` instead), refuting the claim as stated. -/
theorem get_track_absent_not_missingTrackError :
    ¬ (Library.get_track ⟨[]⟩ 5 = .error .missingTrackError) := by
  simp [Library.get_track, Library.getitem, dictGet]

/-- C6 amended: for every library, `get(id)` fails with the built-in
`KeyError` (raised by the underlying dict subscript) when the identifier is
absent from the mapping, and returns the mapped track when present. -/
theorem get_track_spec (lib : Library) (i : Int) :
    (dictGet lib.track_map i = none → lib.get_track i = .error .keyError) ∧
      (∀ t : Track, dictGet lib.track_map i = some t → lib.get_track i = .ok t) := by
  constructor
  · intro h
    simp [Library.get_track, Library.getitem, h]
  · intro t h
    simp [Library.get_track, Library.getitem, h]

/-- C6 witness: instantiates `get_track_spec` on the one-track library
{7 ↦ ("A", "X")}: looking up the absent id 5 raises `KeyError`, and looking
up the present id 7 returns the track. -/
theorem get_track_spec_witness :
    Library.get_track ⟨[(7, ⟨"A", "X"⟩)]⟩ 5 = .error .keyError ∧
      Library.get_track ⟨[(7, ⟨"A", "X"⟩)]⟩ 7 = .ok ⟨"A", "X"⟩ :=
  ⟨(get_track_spec ⟨[(7, ⟨"A", "X"⟩)]⟩ 5).1 (by simp [dictGet]),
   (get_track_spec ⟨[(7, ⟨"A", "X"⟩)]⟩ 7).2 ⟨"A", "X"⟩ (by simp [dictGet])⟩

theorem add_node_edges (g : DiGraph) (n : Int) : (g.add_node n).edges = g.edges := by
  unfold DiGraph.add_node
  split <;> rfl

theorem mem_successors (g : DiGraph) (u v : Int) :
    v ∈ g.successors u ↔ (u, v) ∈ g.edges := by
  simp only [DiGraph.successors, List.mem_map, List.mem_filter]
  constructor
  · rintro ⟨⟨x, y⟩, ⟨hmem, hx⟩, hy⟩
    simp only [beq_iff_eq] at hx
    cases hx
    cases hy
    exact hmem
  · intro h
    exact ⟨(u, v), ⟨h, by simp⟩, rfl⟩

theorem add_edge_mem_edges (g : DiGraph) (u v : Int) (e : Int × Int) :
    e ∈ (g.add_edge u v).edges ↔ e ∈ g.edges ∨ e = (u, v) := by
  unfold DiGraph.add_edge
  dsimp only
  split
  next h =>
    simp only [add_node_edges] at h ⊢
    constructor
    · exact Or.inl
    · rintro (h1 | rfl)
      · exact h1
      · exact h
  next h =>
    simp [add_node_edges]

/-- C3: adding a connection where at least one endpoint is not a current
node always fails with the spec's `UnknownTrackError` (the code's
`ValueError`), and no modified network is produced — both ID checks run
before any mutation, so the node set and edge set are unchanged. -/
theorem add_connection_unknown_id_fails (tn : TrackNetwork) (s t : Int) (b : Bool)
    (h : s ∉ tn.graph.nodes ∨ t ∉ tn.graph.nodes) :
    tn.add_connection s t b = .error UnknownTrackError ∧
      ∀ tn' : TrackNetwork, tn.add_connection s t b ≠ .ok tn' := by
  have heq : tn.add_connection s t b = .error .valueError := by
    unfold TrackNetwork.add_connection
    rcases h with h | h
    · rw [if_pos h]
    · by_cases hs : s ∉ tn.graph.nodes
      · rw [if_pos hs]
      · rw [if_neg hs, if_pos h]
  exact ⟨heq, fun tn' hok => by rw [heq] at hok; exact Except.noConfusion hok⟩

/-- C3 witness: on the one-node network with node 1 and no edges, adding a
connection from the unknown ID 2 fails with `UnknownTrackError`. -/
theorem add_connection_unknown_id_fails_witness :
    TrackNetwork.add_connection ⟨⟨[1], []⟩, ⟨[]⟩⟩ 2 1 false =
      .error UnknownTrackError :=
  (add_connection_unknown_id_fails ⟨⟨[1], []⟩, ⟨[]⟩⟩ 2 1 false
    (Or.inl (by decide))).1

/-- C4: for two current node identifiers `a` and `b`, a bidirectional add
succeeds and makes `b` a neighbor of `a` and `a` a neighbor of `b` (both
directed edges present), while a non-bidirectional add succeeds, makes `b` a
neighbor of `a`, and adds no reverse edge: for distinct identifiers the
presence of `(b, a)` in the edge set is exactly what it was before. -/
theorem add_connection_directionality (tn : TrackNetwork) (a b : Int)
    (ha : a ∈ tn.graph.nodes) (hb : b ∈ tn.graph.nodes) :
    ∃ tnT tnF : TrackNetwork,
      tn.add_connection a b true = .ok tnT ∧
      b ∈ tnT.graph.successors a ∧ a ∈ tnT.graph.successors b ∧
      tn.add_connection a b false = .ok tnF ∧
      b ∈ tnF.graph.successors a ∧
      (a ≠ b → ((b, a) ∈ tnF.graph.edges ↔ (b, a) ∈ tn.graph.edges)) := by
  have ha' : ¬ a ∉ tn.graph.nodes := not_not_intro ha
  have hb' : ¬ b ∉ tn.graph.nodes := not_not_intro hb
  refine ⟨{ tn with graph := (tn.graph.add_edge a b).add_edge b a },
          { tn with graph := tn.graph.add_edge a b }, ?_, ?_, ?_, ?_, ?_, ?_⟩
  · unfold TrackNetwork.add_connection
    rw [if_neg ha', if_neg hb']
    rfl
  · rw [mem_successors, add_edge_mem_edges, add_edge_mem_edges]
    exact Or.inl (Or.inr rfl)
  · rw [mem_successors, add_edge_mem_edges]
    exact Or.inr rfl
  · unfold TrackNetwork.add_connection
    rw [if_neg ha', if_neg hb']
    rfl
  · rw [mem_successors, add_edge_mem_edges]
    exact Or.inr rfl
  · intro hne
    rw [add_edge_mem_edges]
    simp [Prod.ext_iff, Ne.symm hne]

/-- C4 witness: instantiates `add_connection_directionality` on the
two-node, edgeless network with nodes 1 and 2. -/
theorem add_connection_directionality_witness :
    ∃ tnT tnF : TrackNetwork,
      TrackNetwork.add_connection ⟨⟨[1, 2], []⟩, ⟨[]⟩⟩ 1 2 true = .ok tnT ∧
      2 ∈ tnT.graph.successors 1 ∧ 1 ∈ tnT.graph.successors 2 ∧
      TrackNetwork.add_connection ⟨⟨[1, 2], []⟩, ⟨[]⟩⟩ 1 2 false = .ok tnF ∧
      2 ∈ tnF.graph.successors 1 ∧
      ((1 : Int) ≠ 2 →
        (((2 : Int), (1 : Int)) ∈ tnF.graph.edges ↔
          ((2 : Int), (1 : Int)) ∈ ([] : List (Int × Int)))) :=
  add_connection_directionality ⟨⟨[1, 2], []⟩, ⟨[]⟩⟩ 1 2 (by decide) (by decide)

/-- C7: converting a library to row form and back, and a connection list to
row form and back, preserves them exactly. With duplicate-free keys (the
invariant of a real Python dict) the reconstruction is even equal as an
insertion-ordered association list, which is stronger than the claim's
equality as mappings/sets. -/
theorem rowdata_roundtrip (lib : Library)
    (hnd : (dictKeys lib.track_map).Nodup) (connections : List (Int × Int)) :
    LibraryData.to_library (LibraryData.from_library lib) = lib ∧
      ConnectionsData.to_connections (ConnectionsData.from_connections connections) =
        connections := by
  constructor
  · obtain ⟨m⟩ := lib
    have h1 : (dictKeys ([] : List (Int × Track)) ++ dictKeys m).Nodup := by
      simpa using hnd
    have h2 := foldl_dictInsert_fresh m [] h1
    simp only [List.nil_append] at h2
    show LibraryData.to_library (LibraryData.from_library ⟨m⟩) = ⟨m⟩
    unfold LibraryData.to_library LibraryData.from_library
    rw [List.foldl_map]
    exact congrArg Library.mk h2
  · induction connections with
    | nil => rfl
    | cons c rest ih =>
      simpa [ConnectionsData.to_connections, ConnectionsData.from_connections]
        using ih

/-- C7 witness: instantiates `rowdata_roundtrip` on the two-track library
{1 ↦ ("A", "X"), 2 ↦ ("B", "Y")} and the connection list [(1, 2)]. -/
theorem rowdata_roundtrip_witness :
    LibraryData.to_library
        (LibraryData.from_library ⟨[(1, ⟨"A", "X"⟩), (2, ⟨"B", "Y"⟩)]⟩) =
      ⟨[(1, ⟨"A", "X"⟩), (2, ⟨"B", "Y"⟩)]⟩ ∧
      ConnectionsData.to_connections (ConnectionsData.from_connections [(1, 2)]) =
        [(1, 2)] :=
  rowdata_roundtrip ⟨[(1, ⟨"A", "X"⟩), (2, ⟨"B", "Y"⟩)]⟩ (by decide) [(1, 2)]

theorem zip_tail_getElem? :
    ∀ (l : List Track) (i : Nat) (h : i + 1 < l.length),
      (l.zip l.tail)[i]? = some (l.get ⟨i, by omega⟩, l.get ⟨i + 1, h⟩)
  | _ :: _ :: _, 0, _ => by simp
  | a :: b :: t, i + 1, h => by
    have ih := zip_tail_getElem? (b :: t) i (by simpa using h)
    simpa using ih
  | [], i, h => by simp at h
  | [a], i, h => by simp at h

theorem zip_tail_short (l : List Track) (h : l.length < 2) : l.zip l.tail = [] := by
  match l with
  | [] => rfl
  | [a] => rfl
  | a :: b :: t =>
    simp at h
    omega

/-- C9: the transitions derivation of an ordered history playlist returns
exactly the adjacent pairs of the ordered track list, in order — the i-th
transition is (track i, track i+1) and there are length − 1 of them, so no
non-adjacent pair ever occurs — and a playlist of fewer than two tracks
yields the empty list. -/
theorem transitions_adjacent_pairs (p : RekordboxHistoryPlaylist) :
    p.transitions.length = p.tracks.length - 1 ∧
      (∀ (i : Nat) (h : i + 1 < p.tracks.length),
        p.transitions[i]? =
          some (p.tracks.get ⟨i, by omega⟩, p.tracks.get ⟨i + 1, h⟩)) ∧
      (p.tracks.length < 2 → p.transitions = []) := by
  refine ⟨?_, ?_, ?_⟩
  · simp only [RekordboxHistoryPlaylist.transitions, List.length_zip,
      List.length_tail]
    omega
  · intro i h
    exact zip_tail_getElem? p.tracks i h
  · intro hlen
    exact zip_tail_short p.tracks hlen

/-- C9 witness: instantiates `transitions_adjacent_pairs` on the ordered
three-track playlist [("A","X"), ("B","Y"), ("C","Z")]: exactly two
transitions, the adjacent pairs in order. -/
theorem transitions_adjacent_pairs_witness :
    (RekordboxHistoryPlaylist.transitions
        ⟨[(1, ⟨"A", "X"⟩), (2, ⟨"B", "Y"⟩), (3, ⟨"C", "Z"⟩)], "HISTORY", 0⟩).length = 2 ∧
      (RekordboxHistoryPlaylist.transitions
          ⟨[(1, ⟨"A", "X"⟩), (2, ⟨"B", "Y"⟩), (3, ⟨"C", "Z"⟩)], "HISTORY", 0⟩)[0]? =
        some (⟨"A", "X"⟩, ⟨"B", "Y"⟩) ∧
      (RekordboxHistoryPlaylist.transitions
          ⟨[(1, ⟨"A", "X"⟩), (2, ⟨"B", "Y"⟩), (3, ⟨"C", "Z"⟩)], "HISTORY", 0⟩)[1]? =
        some (⟨"B", "Y"⟩, ⟨"C", "Z"⟩) := by
  refine ⟨?_, ?_, ?_⟩
  · rw [(transitions_adjacent_pairs _).1]
    rfl
  · rw [(transitions_adjacent_pairs _).2.1 0 (by decide)]
    rfl
  · rw [(transitions_adjacent_pairs _).2.1 1 (by decide)]
    rfl

/-- C10: when two libraries `a` and `b` map a shared identifier,
`merge_libraries [a, b]` pops the LAST list element and folds `extend` over
the rest, so the first library `a` wins on collision, whereas the binary
`a.extend(b)` lets the incoming `b` win — the list merge does not give
precedence to later libraries. Key lists are assumed duplicate-free, the
invariant of a Python dict. -/
theorem merge_libraries_first_wins (a b : Library) (i : Int) (ta tb : Track)
    (hna : (dictKeys a.track_map).Nodup) (hnb : (dictKeys b.track_map).Nodup)
    (ha : dictGet a.track_map i = some ta) (hb : dictGet b.track_map i = some tb) :
    (∃ m : Library, merge_libraries [a, b] = .ok m ∧
        dictGet m.track_map i = some ta) ∧
      dictGet ((a.extend b).track_map) i = some tb := by
  constructor
  · refine ⟨b.extend a, rfl, ?_⟩
    show dictGet (dictUpdate b.track_map a.track_map) i = some ta
    exact dictGet_update_mem a.track_map b.track_map i ta hna ha
  · show dictGet (dictUpdate a.track_map b.track_map) i = some tb
    exact dictGet_update_mem b.track_map a.track_map i tb hnb hb

/-- C10 witness: instantiates `merge_libraries_first_wins` on the one-track
libraries a = {1 ↦ ("A", "X")} and b = {1 ↦ ("B", "Y")}: the list merge
keeps a's entry, the binary extend keeps b's. -/
theorem merge_libraries_first_wins_witness :
    (∃ m : Library, merge_libraries [⟨[(1, ⟨"A", "X"⟩)]⟩, ⟨[(1, ⟨"B", "Y"⟩)]⟩] =
        .ok m ∧ dictGet m.track_map 1 = some ⟨"A", "X"⟩) ∧
      dictGet ((Library.extend ⟨[(1, ⟨"A", "X"⟩)]⟩ ⟨[(1, ⟨"B", "Y"⟩)]⟩).track_map) 1 =
        some ⟨"B", "Y"⟩ :=
  merge_libraries_first_wins ⟨[(1, ⟨"A", "X"⟩)]⟩ ⟨[(1, ⟨"B", "Y"⟩)]⟩ 1
    ⟨"A", "X"⟩ ⟨"B", "Y"⟩ (by decide) (by decide) (by decide) (by decide)

theorem d3NodesOf_ok (lib : Library) :
    ∀ ids : List Int, (∀ i ∈ ids, (dictGet lib.track_map i).isSome) →
      ∃ nodes : List D3Node, d3NodesOf lib ids = .ok nodes ∧
        nodes.map D3Node.id = ids ∧
        ∀ nd ∈ nodes, ∃ t : Track, dictGet lib.track_map nd.id = some t ∧
          nd.name = Track.str t := by
  intro ids
  induction ids with
  | nil => exact fun _ => ⟨[], rfl, rfl, by simp⟩
  | cons i rest ih =>
    intro h
    obtain ⟨t, ht⟩ := Option.isSome_iff_exists.mp (h i (by simp))
    obtain ⟨nodes, hok, hids, hname⟩ := ih fun j hj => h j (by simp [hj])
    have hgt : lib.getitem i = .ok t := by simp [Library.getitem, ht]
    refine ⟨⟨i, Track.str t⟩ :: nodes, ?_, ?_, ?_⟩
    · simp only [d3NodesOf, hgt, hok]
      rfl
    · simp [hids]
    · intro nd hnd
      rcases List.mem_cons.mp hnd with rfl | hnd'
      · exact ⟨t, ht, rfl⟩
      · exact hname nd hnd'

/-- C8: when the network's library contains every node identifier (the
network invariant; `library[id]` would raise `KeyError` otherwise) and the
networkx node and edge sets are duplicate-free (a networkx invariant), the
export document has every network track id exactly once as a node id, each
node named "artist - title" of the library track with that id, and every
directed connection exactly once as a link, with no other links. -/
theorem d3_export_spec (tn : TrackNetwork)
    (hn : tn.graph.nodes.Nodup) (he : tn.graph.edges.Nodup)
    (hlib : ∀ i ∈ tn.graph.nodes, (dictGet tn.library.track_map i).isSome) :
    ∃ doc : D3Doc, D3NetworkData.from_track_network tn = .ok doc ∧
      doc.nodes.map D3Node.id = tn.graph.nodes ∧
      (∀ i ∈ tn.graph.nodes, (doc.nodes.map D3Node.id).count i = 1) ∧
      (∀ nd ∈ doc.nodes, ∃ t : Track, dictGet tn.library.track_map nd.id = some t ∧
        nd.name = t.artist ++ " - " ++ t.title) ∧
      doc.links.map (fun l => (l.source, l.target)) = tn.graph.edges ∧
      (∀ e ∈ tn.graph.edges, doc.links.count ⟨e.1, e.2⟩ = 1) := by
  obtain ⟨nodes, hok, hids, hname⟩ := d3NodesOf_ok tn.library tn.graph.nodes hlib
  refine ⟨⟨nodes, tn.graph.edges.map fun c => ⟨c.1, c.2⟩⟩, ?_, hids, ?_, ?_, ?_, ?_⟩
  · simp [D3NetworkData.from_track_network, TrackNetwork.track_ids,
      TrackNetwork.connections, hok]
  · intro i hi
    rw [hids]
    exact List.count_eq_one_of_mem hn hi
  · exact hname
  · induction tn.graph.edges with
    | nil => rfl
    | cons c rest ihc => simpa using ihc
  · intro e he'
    have hinj : Function.Injective fun c : Int × Int => (⟨c.1, c.2⟩ : D3Link) := by
      intro x y hxy
      cases x
      cases y
      simpa [D3Link.mk.injEq, Prod.ext_iff] using hxy
    have hnodup : (tn.graph.edges.map fun c : Int × Int => (⟨c.1, c.2⟩ : D3Link)).Nodup :=
      he.map hinj
    have hmem : (⟨e.1, e.2⟩ : D3Link) ∈
        tn.graph.edges.map fun c : Int × Int => (⟨c.1, c.2⟩ : D3Link) :=
      List.mem_map.mpr ⟨e, he', rfl⟩
    exact List.count_eq_one_of_mem hnodup hmem

/-- C8 witness: instantiates `d3_export_spec` on the network with nodes
1, 2, the single edge (1, 2), and the library {1 ↦ ("A", "X"),
2 ↦ ("B", "Y")}. -/
theorem d3_export_spec_witness :
    ∃ doc : D3Doc,
      D3NetworkData.from_track_network
          ⟨⟨[1, 2], [(1, 2)]⟩, ⟨[(1, ⟨"A", "X"⟩), (2, ⟨"B", "Y"⟩)]⟩⟩ = .ok doc ∧
      doc.nodes.map D3Node.id = [1, 2] ∧
      (∀ i ∈ [(1 : Int), 2], (doc.nodes.map D3Node.id).count i = 1) ∧
      (∀ nd ∈ doc.nodes, ∃ t : Track,
        dictGet [(1, (⟨"A", "X"⟩ : Track)), (2, ⟨"B", "Y"⟩)] nd.id = some t ∧
        nd.name = t.artist ++ " - " ++ t.title) ∧
      doc.links.map (fun l => (l.source, l.target)) = [(1, 2)] ∧
      (∀ e ∈ [((1 : Int), (2 : Int))], doc.links.count ⟨e.1, e.2⟩ = 1) :=
  d3_export_spec ⟨⟨[1, 2], [(1, 2)]⟩, ⟨[(1, ⟨"A", "X"⟩), (2, ⟨"B", "Y"⟩)]⟩⟩
    (by decide) (by decide) (by decide)

end MixMemory
